import Mathlib

/-!
Verification development for the Goodreads crawl pipeline
(`scripts` module: identifier discovery, detail extraction, CSV pipeline).

Python strings are modelled as lists of characters (`Str`); the helper
functions below reproduce the exact semantics of the Python string
operations the scraper uses (`split`, `strip`, `lower`, `replace`,
membership `in`, `isdigit`, `int`, `float`).
-/

/-- Python `str` is modelled as a list of characters. -/
abbrev Str := List Char

/-- Python `s.strip()`: remove leading and trailing whitespace. -/
def pyStrip (s : Str) : Str :=
  ((s.dropWhile Char.isWhitespace).reverse.dropWhile Char.isWhitespace).reverse

/-- Python `s.lower()` (ASCII case folding, which is all the scraper needs). -/
def pyLower (s : Str) : Str := s.map Char.toLower

/-- Find the first occurrence of `sep` in `s`; return the part strictly
before it and the part strictly after it, or `none` when `sep` does not
occur. -/
def breakOn (sep : Str) : Str → Option (Str × Str)
  | [] => if sep.isEmpty then some ([], []) else none
  | c :: rest =>
    if sep.isPrefixOf (c :: rest) then some ([], (c :: rest).drop sep.length)
    else
      match breakOn sep rest with
      | some (pre, post) => some (c :: pre, post)
      | none => none

/-- Fuel-indexed splitting on a separator; `fuel` bounds the number of
pieces produced.  With `fuel = s.length + 1` this is exactly Python
`s.split(sep)` for a non-empty `sep` (each piece consumes at least one
character of `s`, so the fuel is never exhausted). -/
def splitOnFuel (sep : Str) : Nat → Str → List Str
  | 0, s => [s]
  | fuel + 1, s =>
    match breakOn sep s with
    | none => [s]
    | some (pre, post) => pre :: splitOnFuel sep fuel post

/-- Python `s.split(sep)` for non-empty `sep`. -/
def pySplit (sep s : Str) : List Str := splitOnFuel sep (s.length + 1) s

/-- Python `sep in s` (substring membership) for non-empty `sep`:
equivalent to `s.split(sep)` having at least two pieces. -/
def pyContains (sep s : Str) : Bool := 2 ≤ (pySplit sep s).length

/-- Python `s.isdigit()` restricted to ASCII digits (the only inputs the
scraper ever feeds it). -/
def pyIsDigit (s : Str) : Bool := !s.isEmpty && s.all Char.isDigit

/-- Decimal value of a string of ASCII digits (the value Python
`int(s)` computes on an `isdigit` string). -/
def digitsToNat (s : Str) : Nat := s.foldl (fun a c => a * 10 + (c.toNat - 48)) 0

/-- Python `s.split()` (no separator): split on runs of whitespace,
dropping empty pieces. -/
def wsSplitGo : Str → Str → List Str
  | [], acc => if acc.isEmpty then [] else [acc.reverse]
  | c :: rest, acc =>
    if c.isWhitespace then
      if acc.isEmpty then wsSplitGo rest [] else acc.reverse :: wsSplitGo rest []
    else wsSplitGo rest (c :: acc)

/-- Python `s.split()` with no argument. -/
def pyWsSplit (s : Str) : List Str := wsSplitGo s []

/-- Python `s.replace(",", "")`: drop every comma. -/
def removeCommas (s : Str) : Str := s.filter (fun c => c ≠ ',')

/-- Python `", ".join(parts)`. -/
def joinComma : List Str → Str
  | [] => []
  | [a] => a
  | a :: b :: rest => a ++ (", ".data) ++ joinComma (b :: rest)

/-- The exception kinds the scraper can raise or catch.  All of them are
subclasses of Python `Exception`, so the blanket `except Exception`
handler in `get_goodreads_book_data` catches every one of them. -/
inductive Exc
  | timeout
  | noSuchElement
  | valueError
  | typeError
  | navError
  deriving DecidableEq, Repr

deriving instance DecidableEq for Except

/-- Python `int(s)`: strip whitespace, allow one optional sign, then
require a non-empty run of digits; otherwise raise `ValueError`. -/
def pyInt (s : Str) : Except Exc Int :=
  match pyStrip s with
  | '-' :: u =>
      if pyIsDigit u then .ok (-(digitsToNat u : Int)) else .error .valueError
  | '+' :: u =>
      if pyIsDigit u then .ok (digitsToNat u : Int) else .error .valueError
  | u =>
      if pyIsDigit u then .ok (digitsToNat u : Int) else .error .valueError

/-- Python `float(s)` on the plain decimal forms the rating selector
yields (optional sign, digits, optional fractional part); anything else
raises `ValueError`. -/
def pyFloat (s : Str) : Except Exc Rat :=
  let core : Str → Except Exc Rat := fun t =>
    let ip := t.takeWhile Char.isDigit
    match t.dropWhile Char.isDigit with
    | [] => if ip.isEmpty then .error .valueError else .ok (digitsToNat ip : Rat)
    | '.' :: fp =>
      if (!ip.isEmpty || !fp.isEmpty) && fp.all Char.isDigit then
        .ok ((digitsToNat ip : Rat) + (digitsToNat fp : Rat) / (10 ^ fp.length))
      else .error .valueError
    | _ => .error .valueError
  match s with
  | '-' :: t => (core t).map (fun q => -q)
  | '+' :: t => core t
  | t => core t

/-- A candidate link element on a listing page.  `href` is the value of
`link.get_attribute("href")`; Selenium returns `None` (modelled as
`none`) when the attribute is absent. -/
structure Link where
  href : Option Str
  deriving DecidableEq, Repr

/-- Abstract state of one book detail page, i.e. everything the page
side of the Selenium calls in `get_goodreads_book_data` can answer.
Each `Except`-valued field models a driver call that can raise. -/
structure DetailPage where
  /-- Result of `driver.get(url)`. -/
  nav : Except Exc Unit
  /-- Result of the 10s `WebDriverWait` for the book-title element. -/
  titleWait : Except Exc Unit
  /-- Result of the scroll plus 5s `readyState` wait. -/
  readyWait : Except Exc Unit
  /-- Result of locating and clicking the show-more control (3s wait). -/
  showMore : Except Exc Unit
  /-- Texts of the elements matched by the genre selector
  (`find_elements` never raises on zero matches). -/
  genresQ : List Str
  /-- Text of the title element; `find_element` raises when missing. -/
  titleQ : Except Exc Str
  /-- Texts of the elements matched by the author selector. -/
  authorsQ : List Str
  /-- Text of the rating element. -/
  ratingQ : Except Exc Str
  /-- Text of the rating-metadata element. -/
  ratingMetaQ : Except Exc Str
  /-- Texts of all `p` elements on the page, in document order. -/
  pTexts : List Str

/-- The fully-populated dictionary built on the success path of
`get_goodreads_book_data`. -/
structure FullRec where
  title : Str
  author : Str
  rating : Rat
  genres : List Str
  pages : Option Int
  ratings_count : Int
  deriving DecidableEq, Repr

/-!
Identifier discovery (`get_top_goodreads_book_ids`).

A listing world maps a page number to the link elements
`driver.find_elements(By.CSS_SELECTOR, BOOK_LINK_SELECTOR)` returns
after navigating to `BOOKS_URL?page={page}` and waiting for the ready
state.  The `while` loop has no structural bound, so the embedding is
fuel-indexed: `none` means the loop was still running after `fuel`
iterations of the `while` condition.
-/

/-- The candidate test applied to one (non-`None`) href:
`"/book/show/" in href`, then
`book_id_part = href.split("/book/show/")[1].split(".")[0]`, then
`book_id_part.isdigit()`; the extracted identifier is
`int(book_id_part)`. -/
def hrefCand (href : Str) : Option Nat :=
  if pyContains ("/book/show/".data) href then
    let book_id_part :=
      (pySplit (".".data) ((pySplit ("/book/show/".data) href).getD 1 [])).getD 0 []
    if pyIsDigit book_id_part then some (digitsToNat book_id_part) else none
  else none

/-- The inner `for link in links` loop of `get_top_goodreads_book_ids`:
for each candidate identifier not already collected, append it and stop
as soon as the target count is reached.  A `none` href makes
`"/book/show/" in href` raise `TypeError`, which nothing catches. -/
def goLinks (maxBooks : Nat) : List Link → List Nat → Except Exc (List Nat)
  | [], book_ids => .ok book_ids
  | link :: rest, book_ids =>
    match link.href with
    | none => .error .typeError
    | some href =>
      match hrefCand href with
      | none => goLinks maxBooks rest book_ids
      | some n =>
        if n ∉ book_ids then
          let book_ids2 := book_ids ++ [n]
          if maxBooks ≤ book_ids2.length then .ok book_ids2
          else goLinks maxBooks rest book_ids2
        else goLinks maxBooks rest book_ids

/-- The `while len(book_ids) < max_books` loop, fuel-indexed. -/
def discoverLoop (world : Nat → List Link) (maxBooks : Nat) :
    Nat → Nat → List Nat → Option (Except Exc (List Nat))
  | 0, _, _ => none
  | fuel + 1, page, book_ids =>
    if book_ids.length < maxBooks then
      match goLinks maxBooks (world page) book_ids with
      | .error e => some (.error e)
      | .ok book_ids2 => discoverLoop world maxBooks fuel (page + 1) book_ids2
    else some (.ok book_ids)

/-- The discovery function: start at page 1 with an empty accumulator. -/
def get_top_goodreads_book_ids (world : Nat → List Link) (maxBooks fuel : Nat) :
    Option (Except Exc (List Nat)) :=
  discoverLoop world maxBooks fuel 1 []

/-- Specification-side view of one listing page: the stream of
candidate identifiers its links yield, in encounter order (links with
no href, no `/book/show/` segment, or a non-digit id token contribute
nothing). -/
def linkCands : List Link → List Nat :=
  List.filterMap fun link => link.href.bind hrefCand

/-- Specification-side first-seen deduplication: append each candidate
not yet seen, in encounter order. -/
def firstSeen (seen : List Nat) : List Nat → List Nat
  | [] => seen
  | n :: ns => if n ∈ seen then firstSeen seen ns else firstSeen (seen ++ [n]) ns

/-- The candidate stream of `k` consecutive listing pages starting at
`page`, in encounter order. -/
def streamFrom (world : Nat → List Link) : Nat → Nat → List Nat
  | _, 0 => []
  | page, k + 1 => linkCands (world page) ++ streamFrom world (page + 1) k

/-!
Detail extraction (`get_goodreads_book_data`).
-/

/-- The `wait_scroll_and_expand` helper: title wait, scroll plus
ready-state wait (both can raise `TimeoutException`), then the
try-protected show-more click whose failure is logged and swallowed. -/
def wait_scroll_and_expand (pg : DetailPage) : Except Exc Unit :=
  pg.titleWait.bind fun _ =>
  pg.readyWait.bind fun _ =>
  match pg.showMore with
  | .ok _ => .ok ()
  | .error _ => .ok ()

/-- The `for p in p_tags` loop: take the first paragraph whose
stripped, lowercased text contains `"pages"` and apply
`int(text.split()[0])` to it; no match leaves `pages = None`.
A non-numeric first token makes `int` raise `ValueError`. -/
def findPages : List Str → Except Exc (Option Int)
  | [] => .ok none
  | t :: rest =>
    if pyContains ("pages".data) (pyLower (pyStrip t)) then
      match pyInt ((pyWsSplit (pyLower (pyStrip t))).getD 0 []) with
      | .ok n => .ok (some n)
      | .error e => .error e
    else findPages rest

/-- The `try` body of `get_goodreads_book_data`, steps in source order:
navigate, wait/scroll/expand, query genres (infallible `find_elements`),
title, authors, rating (`float`), rating metadata
(`int(text.split("ratings")[0].strip().replace(",", ""))`), then the
page-count paragraph scan.  `safe_get_text` strips single-element
texts and strips-and-filters multi-element texts. -/
def bodySteps (pg : DetailPage) : Except Exc FullRec :=
  pg.nav.bind fun _ =>
  (wait_scroll_and_expand pg).bind fun _ =>
  pg.titleQ.bind fun t =>
  pg.ratingQ.bind fun rs =>
  (pyFloat (pyStrip rs)).bind fun rating =>
  pg.ratingMetaQ.bind fun ms =>
  (pyInt (removeCommas (pyStrip ((pySplit ("ratings".data) (pyStrip ms)).getD 0 [])))).bind
    fun ratings_count =>
  (findPages pg.pTexts).bind fun pages =>
  .ok
    { title := pyStrip t
      author := joinComma ((pg.authorsQ.map pyStrip).filter fun a => !a.isEmpty)
      rating := rating
      genres := (pg.genresQ.map pyStrip).filter fun g => !g.isEmpty
      pages := pages
      ratings_count := ratings_count }

/-- `get_goodreads_book_data`: the `try` body wrapped in
`except TimeoutException` and `except Exception`, both of which log and
return the empty dict `{}` (modelled as `none`).  The result type is
`Except` so that "the function raises to its caller" is expressible;
the catch-all handlers mean the error arm is never produced. -/
def get_goodreads_book_data (pg : DetailPage) : Except Exc (Option FullRec) :=
  match bodySteps pg with
  | .ok r => .ok (some r)
  | .error _ => .ok none

/-- The record the caller observes: `some r` when extraction succeeded,
`none` for the empty dict returned after a caught exception. -/
def extractVal (pg : DetailPage) : Option FullRec :=
  match bodySteps pg with
  | .ok r => some r
  | .error _ => none

/-- The marker test of the paragraph scan, as a reusable predicate:
does the stripped, lowercased paragraph text contain `"pages"`. -/
def predMarker (t : Str) : Bool := pyContains ("pages".data) (pyLower (pyStrip t))

/-!
The pipeline (`main`).

`main` opens the CSV, writes the header, starts the driver, discovers
150 ids, then for each id extracts a record, flattens its genre list,
writes one row and flushes, and finally calls `driver.quit()` as the
last statement of the `with` block (not in a `finally`).  The run is
modelled as the sequence of externally visible events plus the final
outcome; `none` models a discovery stage that never returns. -/

/-- One CSV row as passed to `writer.writerow`: `none` per column for a
key missing from the dict (an empty `{}` record leaves every column
empty).  `genres` is the flattened, comma-joined string. -/
structure OutRow where
  title : Option Str
  author : Option Str
  rating : Option Rat
  genres : Option Str
  pages : Option (Option Int)
  ratings_count : Option Int
  deriving DecidableEq, Repr

/-- The per-item normalization in `main`: `info.get("genres")` is a
list exactly when extraction succeeded, and is then joined with ", ";
an empty dict yields a row with every column empty. -/
def toRow : Option FullRec → OutRow
  | none => ⟨none, none, none, none, none, none⟩
  | some r =>
    ⟨some r.title, some r.author, some r.rating, some (joinComma r.genres),
      some r.pages, some r.ratings_count⟩

/-- The all-empty CSV row. -/
def emptyRow : OutRow := ⟨none, none, none, none, none, none⟩

/-- Externally visible events of a run, in order: the header write, a
data-row write, a `file.flush()`, and `driver.quit()`. -/
inductive Ev
  | header
  | row (r : OutRow)
  | flush
  | quit
  deriving DecidableEq, Repr

/-- The `for i, book_id in enumerate(ids, 1)` loop of `main`: extract,
normalize, `writer.writerow(info)`, `file.flush()`.  An exception from
an iteration would abort the loop (the error arm), but
`get_goodreads_book_data` never raises. -/
def pipelineLoop (dw : Nat → DetailPage) : List Nat → List Ev × Except Exc Unit
  | [] => ([], .ok ())
  | book_id :: rest =>
    match get_goodreads_book_data (dw book_id) with
    | .error e => ([], .error e)
    | .ok info =>
      let (evs, res) := pipelineLoop dw rest
      (Ev.row (toRow info) :: Ev.flush :: evs, res)

/-- `main`: header, then discovery with target 150, then the per-item
loop, then `driver.quit()`.  `quit` is emitted only after the loop
completes normally; an exception from discovery (or from the loop)
propagates with no `quit` event.  `dw book_id` is the detail page the
driver reaches for `BOOK_DETAILS_URL.format(book_id=book_id)`. -/
def mainRun (lw : Nat → List Link) (dw : Nat → DetailPage) (fuel : Nat) :
    Option (List Ev × Except Exc Unit) :=
  match get_top_goodreads_book_ids lw 150 fuel with
  | none => none
  | some (.error e) => some ([Ev.header], .error e)
  | some (.ok ids) =>
    match pipelineLoop dw ids with
    | (evs, .ok _) => some (Ev.header :: (evs ++ [Ev.quit]), .ok ())
    | (evs, .error e) => some (Ev.header :: evs, .error e)

/-- The data rows of an event trace, in order. -/
def rowsOf (evs : List Ev) : List OutRow :=
  evs.filterMap fun e =>
    match e with
    | Ev.row r => some r
    | _ => none

/-- Every row event is immediately followed by a flush event. -/
def flushAfterRow : List Ev → Bool
  | [] => true
  | Ev.row _ :: Ev.flush :: rest => flushAfterRow rest
  | Ev.row _ :: _ => false
  | _ :: rest => flushAfterRow rest

/-!
Concrete worlds and pages used by witnesses and counterexamples.
-/

/-- A detail page on which every extraction step succeeds. -/
def pgW : DetailPage :=
  { nav := .ok (), titleWait := .ok (), readyWait := .ok (), showMore := .ok ()
    genresQ := ["Fiction ".data, " ".data], titleQ := .ok (" The Title ".data)
    authorsQ := ["A One".data, "B Two".data], ratingQ := .ok ("4".data)
    ratingMetaQ := .ok ("12,345 ratings".data), pTexts := ["352 pages".data] }

/-- The record `get_goodreads_book_data` extracts from `pgW`. -/
def recW : FullRec :=
  { title := "The Title".data, author := "A One, B Two".data, rating := 4
    genres := ["Fiction".data], pages := some 352, ratings_count := 12345 }

/-- A detail page whose title wait times out. -/
def pgTimeoutW : DetailPage := { pgW with titleWait := .error .timeout }

/-- A detail page whose first pages-marker paragraph starts with a
non-numeric token. -/
def pgBadPagesW : DetailPage := { pgW with pTexts := ["about 352 pages".data] }

/-- A listing world every page of which repeats the same single book
link: the discovery loop can never reach a target above 1 on it. -/
def dupWorld : Nat → List Link := fun _ => [⟨some ("/book/show/5".data)⟩]

/-- A listing world whose first link has no href attribute. -/
def nullWorld : Nat → List Link := fun _ => [⟨none⟩, ⟨some ("/book/show/5".data)⟩]

/-- A listing world with two distinct book links on every page. -/
def wPair : Nat → List Link :=
  fun _ => [⟨some ("https://a/book/show/5.x".data)⟩, ⟨some ("https://a/book/show/7.y".data)⟩]

/-- A listing world with one book link on every page. -/
def wOne : Nat → List Link := fun _ => [⟨some ("/book/show/9".data)⟩]

/-- A listing world offering 150 distinct book links on every page, so
that a `main` run (target 150) completes on page 1. -/
def lwBig : Nat → List Link := fun _ =>
  (List.range 150).map fun i => ⟨some (("/book/show/" ++ Nat.repr i).data)⟩

/-- A detail world in which odd book ids resolve to a page whose title
wait times out and even ones to the fully successful page. -/
def dwBig : Nat → DetailPage := fun book_id => if book_id % 2 = 1 then pgTimeoutW else pgW

/-- The identifiers a `main` run discovers on `lwBig`. -/
def idsBig : List Nat := List.range 150

/-- The event trace of a `main` run on `lwBig` and `dwBig`: one row and
one flush per identifier (the all-empty row for the timing-out odd
ids), then the quit. -/
def evsBig : List Ev :=
  Ev.header ::
    ((idsBig.flatMap fun book_id => [Ev.row (toRow (extractVal (dwBig book_id))), Ev.flush])
      ++ [Ev.quit])

/-! Lemmas about the specification-side dedup accumulator. -/

theorem firstSeen_exists_append (cs : List Nat) :
    ∀ seen, ∃ t, firstSeen seen cs = seen ++ t := by
  induction cs with
  | nil => intro seen; exact ⟨[], by simp [firstSeen]⟩
  | cons n ns ih =>
    intro seen
    by_cases hm : n ∈ seen
    · obtain ⟨t, ht⟩ := ih seen
      exact ⟨t, by simp [firstSeen, hm, ht]⟩
    · obtain ⟨t, ht⟩ := ih (seen ++ [n])
      exact ⟨n :: t, by simp [firstSeen, hm, ht]⟩

theorem firstSeen_append (a : List Nat) :
    ∀ b seen, firstSeen seen (a ++ b) = firstSeen (firstSeen seen a) b := by
  induction a with
  | nil => intro b seen; simp [firstSeen]
  | cons n ns ih =>
    intro b seen
    by_cases hm : n ∈ seen <;> simp [firstSeen, hm, ih]

theorem firstSeen_nodup (cs : List Nat) :
    ∀ seen, seen.Nodup → (firstSeen seen cs).Nodup := by
  induction cs with
  | nil => intro seen h; simpa [firstSeen] using h
  | cons n ns ih =>
    intro seen h
    by_cases hm : n ∈ seen
    · simpa [firstSeen, hm] using ih seen h
    · have : (seen ++ [n]).Nodup := by simp [List.nodup_append, h, hm]
      simpa [firstSeen, hm] using ih (seen ++ [n]) this

theorem firstSeen_take (m : Nat) (s f : List Nat) :
    (firstSeen (f.take m) s).take m = (firstSeen f s).take m := by
  rcases le_or_lt f.length m with hle | hlt
  · rw [List.take_of_length_le hle]
  · obtain ⟨t, ht⟩ := firstSeen_exists_append s (f.take m)
    obtain ⟨t2, ht2⟩ := firstSeen_exists_append s f
    have hlen : (f.take m).length = m := by
      rw [List.length_take]; omega
    rw [ht, ht2, List.take_left' hlen, List.take_append_eq_append_take,
      Nat.sub_eq_zero_of_le (Nat.le_of_lt hlt)]
    simp

/-! Lemmas about the discovery loop. -/

theorem linkCands_cons_of_none {l : Link} (rest : List Link)
    (h : l.href.bind hrefCand = none) : linkCands (l :: rest) = linkCands rest := by
  simp [linkCands, List.filterMap_cons, h]

theorem linkCands_cons_of_some (l : Link) (n : Nat) (rest : List Link)
    (h : l.href.bind hrefCand = some n) : linkCands (l :: rest) = n :: linkCands rest := by
  simp [linkCands, List.filterMap_cons, h]

theorem goLinks_ok (maxBooks : Nat) (links : List Link) :
    ∀ ids ids2, ids.length < maxBooks → goLinks maxBooks links ids = .ok ids2 →
      ids2 = (firstSeen ids (linkCands links)).take maxBooks := by
  induction links with
  | nil =>
    intro ids ids2 hlt h
    simp only [goLinks, Except.ok.injEq] at h
    simp [linkCands, firstSeen, ← h, List.take_of_length_le (Nat.le_of_lt hlt)]
  | cons link rest ih =>
    intro ids ids2 hlt h
    cases hl : link.href with
    | none => simp [goLinks, hl] at h
    | some href =>
      cases hc : hrefCand href with
      | none =>
        simp only [goLinks, hl, hc] at h
        rw [linkCands_cons_of_none rest (by simp [hl, hc])]
        exact ih ids ids2 hlt h
      | some n =>
        rw [linkCands_cons_of_some link n rest (by simp [hl, hc])]
        by_cases hm : n ∈ ids
        · simp only [goLinks, hl, hc, hm, not_true_eq_false, if_false] at h
          rw [show firstSeen ids (n :: linkCands rest) = firstSeen ids (linkCands rest) from
            by simp [firstSeen, hm]]
          exact ih ids ids2 hlt h
        · rw [show firstSeen ids (n :: linkCands rest) =
              firstSeen (ids ++ [n]) (linkCands rest) from by simp [firstSeen, hm]]
          by_cases hmax : maxBooks ≤ (ids ++ [n]).length
          · simp only [goLinks, hl, hc, hm, not_false_eq_true, if_true, if_pos hmax,
              Except.ok.injEq] at h
            obtain ⟨t, ht⟩ := firstSeen_exists_append (linkCands rest) (ids ++ [n])
            have hlen : (ids ++ [n]).length = maxBooks := by
              simp only [List.length_append, List.length_singleton] at hmax ⊢; omega
            rw [← h, ht, List.take_left' hlen]
          · simp only [goLinks, hl, hc, hm, not_false_eq_true, if_true, if_neg hmax,
              Except.ok.injEq] at h
            have hlt2 : (ids ++ [n]).length < maxBooks := by
              simp only [List.length_append, List.length_singleton] at hmax ⊢; omega
            exact ih (ids ++ [n]) ids2 hlt2 h

theorem discoverLoop_ok (world : Nat → List Link) (maxBooks : Nat) :
    ∀ fuel page ids out, ids.length ≤ maxBooks →
      discoverLoop world maxBooks fuel page ids = some (.ok out) →
      ∃ k, out = (firstSeen ids (streamFrom world page k)).take maxBooks := by
  intro fuel
  induction fuel with
  | zero => intro page ids out _ h; simp [discoverLoop] at h
  | succ fuel ih =>
    intro page ids out hle h
    by_cases hlt : ids.length < maxBooks
    · simp only [discoverLoop, if_pos hlt] at h
      cases hg : goLinks maxBooks (world page) ids with
      | error e => rw [hg] at h; simp at h
      | ok ids2 =>
        rw [hg] at h
        have h2 := goLinks_ok maxBooks (world page) ids ids2 hlt hg
        have hlen2 : ids2.length ≤ maxBooks := by
          rw [h2, List.length_take]; omega
        obtain ⟨k, hk⟩ := ih (page + 1) ids2 out hlen2 h
        refine ⟨k + 1, ?_⟩
        rw [hk, h2, streamFrom, firstSeen_append, firstSeen_take]
    · simp only [discoverLoop, if_neg hlt, Option.some.injEq, Except.ok.injEq] at h
      exact ⟨0, by simp [streamFrom, firstSeen, ← h, List.take_of_length_le hle]⟩

theorem discoverLoop_ok_length (world : Nat → List Link) (maxBooks : Nat) :
    ∀ fuel page ids out, discoverLoop world maxBooks fuel page ids = some (.ok out) →
      maxBooks ≤ out.length := by
  intro fuel
  induction fuel with
  | zero => intro page ids out h; simp [discoverLoop] at h
  | succ fuel ih =>
    intro page ids out h
    by_cases hlt : ids.length < maxBooks
    · simp only [discoverLoop, if_pos hlt] at h
      cases hg : goLinks maxBooks (world page) ids with
      | error e => rw [hg] at h; simp at h
      | ok ids2 => rw [hg] at h; exact ih (page + 1) ids2 out h
    · simp only [discoverLoop, if_neg hlt, Option.some.injEq, Except.ok.injEq] at h
      rw [← h]; omega

theorem goLinks_no_error (maxBooks : Nat) (links : List Link)
    (hall : ∀ l ∈ links, l.href.isSome) :
    ∀ ids, ∃ ids2, goLinks maxBooks links ids = .ok ids2 := by
  induction links with
  | nil => intro ids; exact ⟨ids, by simp [goLinks]⟩
  | cons link rest ih =>
    intro ids
    have hrest : ∀ l ∈ rest, l.href.isSome := fun l hl => hall l (List.mem_cons_of_mem _ hl)
    cases hl : link.href with
    | none => simpa [hl] using hall link (List.mem_cons_self _ _)
    | some href =>
      cases hc : hrefCand href with
      | none =>
        obtain ⟨ids2, h2⟩ := ih hrest ids
        exact ⟨ids2, by simp only [goLinks, hl, hc]; exact h2⟩
      | some n =>
        by_cases hm : n ∈ ids
        · obtain ⟨ids2, h2⟩ := ih hrest ids
          refine ⟨ids2, ?_⟩
          simp only [goLinks, hl, hc, hm, not_true_eq_false, if_false]
          exact h2
        · by_cases hmax : maxBooks ≤ (ids ++ [n]).length
          · exact ⟨ids ++ [n], by simp only [goLinks, hl, hc, hm, not_false_eq_true,
              if_true, if_pos hmax]⟩
          · obtain ⟨ids2, h2⟩ := ih hrest (ids ++ [n])
            refine ⟨ids2, ?_⟩
            simp only [goLinks, hl, hc, hm, not_false_eq_true, if_true, if_neg hmax]
            exact h2

theorem discoverLoop_term (world : Nat → List Link) (maxBooks : Nat)
    (hall : ∀ p, ∀ l ∈ world p, l.href.isSome) :
    ∀ k page ids, ids.length ≤ maxBooks →
      maxBooks ≤ (firstSeen ids (streamFrom world page k)).length →
      ∃ out, discoverLoop world maxBooks (k + 1) page ids = some (.ok out) := by
  intro k
  induction k with
  | zero =>
    intro page ids hle hge
    simp only [streamFrom, firstSeen] at hge
    exact ⟨ids, by simp [discoverLoop, Nat.not_lt.mpr hge]⟩
  | succ k ih =>
    intro page ids hle hge
    by_cases hlt : ids.length < maxBooks
    · obtain ⟨ids2, hg⟩ := goLinks_no_error maxBooks (world page) (hall page) ids
      have h2 := goLinks_ok maxBooks (world page) ids ids2 hlt hg
      by_cases hm : maxBooks ≤ ids2.length
      · refine ⟨ids2, ?_⟩
        simp only [discoverLoop, if_pos hlt, hg]
        simp [discoverLoop, Nat.not_lt.mpr hm]
      · push_neg at hm
        have hlen : (firstSeen ids (linkCands (world page))).length < maxBooks := by
          have := congrArg List.length h2
          rw [List.length_take] at this
          omega
        have hids2 : ids2 = firstSeen ids (linkCands (world page)) := by
          rw [h2, List.take_of_length_le (Nat.le_of_lt hlen)]
        simp only [streamFrom, firstSeen_append] at hge
        rw [← hids2] at hge
        obtain ⟨out, hout⟩ := ih (page + 1) ids2 (Nat.le_of_lt hm) hge
        refine ⟨out, ?_⟩
        simp only [discoverLoop, if_pos hlt, hg]
        exact hout
    · exact ⟨ids, by simp [discoverLoop, hlt]⟩

/-! Lemmas about the discovery loop on the repeating world. -/

theorem dupWorld_loop_aux : ∀ fuel page, discoverLoop dupWorld 2 fuel page [5] = none := by
  intro fuel
  induction fuel with
  | zero => intro page; simp [discoverLoop]
  | succ fuel ih =>
    intro page
    have hg : goLinks 2 (dupWorld page) [5] = .ok [5] := rfl
    simp only [discoverLoop, hg]
    simpa using ih (page + 1)

/-! Lemmas about detail extraction. -/

theorem except_bind_ok {α β : Type} (x : Except Exc α) (f : α → Except Exc β) (b : β)
    (h : x.bind f = .ok b) : ∃ a, x = .ok a ∧ f a = .ok b := by
  cases x with
  | error e => simp [Except.bind] at h
  | ok a => exact ⟨a, rfl, by simpa [Except.bind] using h⟩

theorem getData_eq (pg : DetailPage) :
    get_goodreads_book_data pg = .ok (extractVal pg) := by
  unfold get_goodreads_book_data extractVal
  cases bodySteps pg <;> rfl

theorem get_ok_some_inv (pg : DetailPage) (r : FullRec)
    (h : get_goodreads_book_data pg = .ok (some r)) : bodySteps pg = .ok r := by
  unfold get_goodreads_book_data at h
  cases hb : bodySteps pg <;> rw [hb] at h <;> simp_all

theorem bodySteps_ok_inv (pg : DetailPage) (r : FullRec) (h : bodySteps pg = .ok r) :
    (∃ ms, pg.ratingMetaQ = .ok ms ∧
        pyInt (removeCommas (pyStrip ((pySplit ("ratings".data) (pyStrip ms)).getD 0 [])))
          = .ok r.ratings_count) ∧
      findPages pg.pTexts = .ok r.pages := by
  unfold bodySteps at h
  obtain ⟨u1, _, h⟩ := except_bind_ok _ _ _ h
  obtain ⟨u2, _, h⟩ := except_bind_ok _ _ _ h
  obtain ⟨t, _, h⟩ := except_bind_ok _ _ _ h
  obtain ⟨rs, _, h⟩ := except_bind_ok _ _ _ h
  obtain ⟨rating, _, h⟩ := except_bind_ok _ _ _ h
  obtain ⟨ms, hms, h⟩ := except_bind_ok _ _ _ h
  obtain ⟨rc, hrc, h⟩ := except_bind_ok _ _ _ h
  obtain ⟨pages, hpg, h⟩ := except_bind_ok _ _ _ h
  simp only [Except.ok.injEq] at h
  subst h
  exact ⟨⟨ms, hms, hrc⟩, hpg⟩

theorem findPages_of_no_marker (l : List Str) (h : ∀ t ∈ l, predMarker t = false) :
    findPages l = .ok none := by
  induction l with
  | nil => rfl
  | cons t rest ih =>
    have ht := h t (List.mem_cons_self _ _)
    unfold predMarker at ht
    simp only [findPages, ht, Bool.false_eq_true, if_false]
    exact ih fun u hu => h u (List.mem_cons_of_mem _ hu)

theorem findPages_found (l : List Str) (t : Str) (h : l.find? predMarker = some t) :
    findPages l =
      match pyInt ((pyWsSplit (pyLower (pyStrip t))).getD 0 []) with
      | .ok n => .ok (some n)
      | .error e => .error e := by
  induction l with
  | nil => simp [List.find?] at h
  | cons u rest ih =>
    by_cases hu : predMarker u = true
    · rw [List.find?_cons_of_pos _ hu] at h
      simp only [Option.some.injEq] at h
      subst h
      unfold predMarker at hu
      simp only [findPages, hu, if_true]
    · rw [List.find?_cons_of_neg _ (by simp [hu])] at h
      unfold predMarker at hu
      simp only [findPages, hu, Bool.false_eq_true, if_false]
      exact ih h

/-! Lemmas about the pipeline loop of `main`. -/

theorem pipelineLoop_eq (dw : Nat → DetailPage) :
    ∀ ids, pipelineLoop dw ids =
      (ids.flatMap fun book_id => [Ev.row (toRow (extractVal (dw book_id))), Ev.flush],
        .ok ()) := by
  intro ids
  induction ids with
  | nil => rfl
  | cons book_id rest ih =>
    simp only [pipelineLoop, getData_eq (dw book_id), ih, List.flatMap_cons]
    rfl

theorem rowsOf_flatMap (f : Nat → OutRow) :
    ∀ ids : List Nat,
      rowsOf (ids.flatMap fun book_id => [Ev.row (f book_id), Ev.flush]) = ids.map f := by
  intro ids
  induction ids with
  | nil => rfl
  | cons book_id rest ih =>
    simp only [List.flatMap_cons, List.map_cons, ← ih]
    rfl

theorem rowsOf_header_append (evs : List Ev) :
    rowsOf (Ev.header :: (evs ++ [Ev.quit])) = rowsOf evs := by
  simp [rowsOf, List.filterMap_cons, List.filterMap_append]

theorem flushAfterRow_flatMap (f : Nat → OutRow) :
    ∀ ids : List Nat,
      flushAfterRow ((ids.flatMap fun book_id => [Ev.row (f book_id), Ev.flush]) ++ [Ev.quit])
        = true := by
  intro ids
  induction ids with
  | nil => rfl
  | cons book_id rest ih => simpa [List.flatMap_cons, flushAfterRow] using ih

/-! The claims. -/

/-- C1: every sequence returned by the identifier-discovery function
has length at most the target count, is pairwise distinct, and lists
identifiers in first-seen encounter order across the visited listing
pages: it is the (truncated-at-target) first-seen deduplication of the
candidate stream of some initial run of pages. -/
theorem discovery_unique_bounded_ordered (world : Nat → List Link)
    (maxBooks fuel : Nat) (out : List Nat)
    (h : get_top_goodreads_book_ids world maxBooks fuel = some (.ok out)) :
    out.length ≤ maxBooks ∧ out.Nodup ∧
      ∃ k, out = (firstSeen [] (streamFrom world 1 k)).take maxBooks := by
  obtain ⟨k, hk⟩ := discoverLoop_ok world maxBooks fuel 1 [] out (by simp) h
  refine ⟨?_, ?_, k, hk⟩
  · rw [hk, List.length_take]; omega
  · rw [hk]
    exact List.Nodup.sublist (List.take_sublist _ _)
      (firstSeen_nodup (streamFrom world 1 k) [] List.nodup_nil)

theorem discovery_unique_bounded_ordered_w :
    ([5, 7] : List Nat).length ≤ 2 ∧ ([5, 7] : List Nat).Nodup ∧
      ∃ k, [5, 7] = (firstSeen [] (streamFrom wPair 1 k)).take 2 :=
  discovery_unique_bounded_ordered wPair 2 2 [5, 7] (by decide)

/-- C2: the detail-extraction function never raises to its caller: it
always returns `.ok`, and whenever any step of its body raises, the
returned record is the empty one. -/
theorem extraction_never_throws (pg : DetailPage) :
    get_goodreads_book_data pg = .ok (extractVal pg) ∧
      ∀ e, bodySteps pg = .error e → get_goodreads_book_data pg = .ok none := by
  refine ⟨getData_eq pg, fun e he => ?_⟩
  unfold get_goodreads_book_data
  rw [he]

theorem extraction_never_throws_w : get_goodreads_book_data pgTimeoutW = .ok none :=
  (extraction_never_throws pgTimeoutW).2 Exc.timeout (by decide)

/-- C6: the discovery loop has no page bound and no guard against a
source that stops yielding fresh identifiers: on a world that repeats
one identifier forever it never returns for target 2; a normal return
happens exactly when the unique-identifier target is met (the result
length always equals the target); and whenever the candidate stream of
some initial run of pages does contain enough unique identifiers (and
no href is `None`), some fuel makes the loop return. -/
theorem discovery_termination_iff :
    (∀ fuel, get_top_goodreads_book_ids dupWorld 2 fuel = none) ∧
      (∀ world maxBooks fuel out,
        get_top_goodreads_book_ids world maxBooks fuel = some (.ok out) →
          out.length = maxBooks) ∧
      ∀ world maxBooks, (∀ p, ∀ l ∈ world p, l.href.isSome) →
        ∀ k, maxBooks ≤ (firstSeen [] (streamFrom world 1 k)).length →
          ∃ fuel out, get_top_goodreads_book_ids world maxBooks fuel = some (.ok out) := by
  refine ⟨?_, ?_, ?_⟩
  · intro fuel
    cases fuel with
    | zero => rfl
    | succ fuel =>
      unfold get_top_goodreads_book_ids
      have hg : goLinks 2 (dupWorld 1) [] = .ok [5] := rfl
      simp only [discoverLoop, List.length_nil, Nat.zero_lt_two, if_true, hg]
      exact dupWorld_loop_aux fuel 2
  · intro world maxBooks fuel out h
    have h1 := discoverLoop_ok_length world maxBooks fuel 1 [] out h
    obtain ⟨k, hk⟩ := discoverLoop_ok world maxBooks fuel 1 [] out (by simp) h
    have h2 : out.length ≤ maxBooks := by rw [hk, List.length_take]; omega
    omega
  · intro world maxBooks hall k hge
    obtain ⟨out, hout⟩ := discoverLoop_term world maxBooks hall k 1 [] (by simp) hge
    exact ⟨k + 1, out, hout⟩

theorem discovery_termination_iff_w : ([9] : List Nat).length = 1 :=
  discovery_termination_iff.2.1 wOne 1 2 [9] (by decide)

/-- C7: when the rating-metadata text is exactly `"12,345 ratings"` and
extraction returns a populated record, its `ratings_count` field is the
integer 12345. -/
theorem ratings_count_parse (pg : DetailPage) (r : FullRec)
    (hmeta : pg.ratingMetaQ = .ok ("12,345 ratings".data))
    (h : get_goodreads_book_data pg = .ok (some r)) :
    r.ratings_count = 12345 := by
  have hb := get_ok_some_inv pg r h
  obtain ⟨⟨ms, hms, hrc⟩, _⟩ := bodySteps_ok_inv pg r hb
  rw [hmeta] at hms
  simp only [Except.ok.injEq] at hms
  rw [← hms] at hrc
  rw [show pyInt (removeCommas (pyStrip ((pySplit ("ratings".data)
      (pyStrip ("12,345 ratings".data))).getD 0 []))) = .ok 12345 from by decide] at hrc
  simp only [Except.ok.injEq] at hrc
  exact hrc.symm

theorem ratings_count_parse_w : recW.ratings_count = 12345 :=
  ratings_count_parse pgW recW (by decide) (by decide)

/-- C8: a populated record whose page's first marker-matching paragraph
reads `"352 pages"` has `pages = 352`; and a page with no
marker-matching paragraph yields `pages` absent without raising. -/
theorem pages_parse_and_absent :
    (∀ pg r, get_goodreads_book_data pg = .ok (some r) →
        pg.pTexts.find? predMarker = some ("352 pages".data) →
        r.pages = some 352) ∧
      ∀ l, (∀ t ∈ l, predMarker t = false) → findPages l = .ok none := by
  constructor
  · intro pg r h hfind
    have hb := get_ok_some_inv pg r h
    obtain ⟨_, hpg⟩ := bodySteps_ok_inv pg r hb
    rw [findPages_found pg.pTexts _ hfind] at hpg
    rw [show pyInt ((pyWsSplit (pyLower (pyStrip ("352 pages".data)))).getD 0 [])
        = .ok 352 from by decide] at hpg
    simp only [Except.ok.injEq] at hpg
    exact hpg.symm
  · exact findPages_of_no_marker

theorem pages_parse_and_absent_w : recW.pages = some 352 ∧ findPages [] = .ok none :=
  ⟨pages_parse_and_absent.1 pgW recW (by decide) (by decide),
    pages_parse_and_absent.2 [] (by simp)⟩

/-- C9: when the first marker-matching paragraph's first token is not a
decimal integer, the whole extraction returns the empty record — the
already-extracted fields are discarded, not just the page count. -/
theorem pages_parse_failure_discards_record (pg : DetailPage) (t : Str)
    (hfind : pg.pTexts.find? predMarker = some t)
    (hbad : pyInt ((pyWsSplit (pyLower (pyStrip t))).getD 0 []) = .error .valueError) :
    get_goodreads_book_data pg = .ok none := by
  unfold get_goodreads_book_data
  cases hb : bodySteps pg with
  | error e => rfl
  | ok r =>
    obtain ⟨_, hpg⟩ := bodySteps_ok_inv pg r hb
    rw [findPages_found pg.pTexts t hfind, hbad] at hpg
    simp at hpg

theorem pages_parse_failure_discards_record_w :
    get_goodreads_book_data pgBadPagesW = .ok none :=
  pages_parse_failure_discards_record pgBadPagesW ("about 352 pages".data)
    (by decide) (by decide)

/-- C10: a listing page holding a link whose href attribute is `None`
makes discovery raise an uncaught `TypeError`, aborting the whole run
(no row-writing loop is reached and the exception propagates out of
`main`). -/
theorem null_href_aborts_run :
    get_top_goodreads_book_ids nullWorld 1 1 = some (.error Exc.typeError) ∧
      mainRun nullWorld dwBig 1 = some ([Ev.header], .error Exc.typeError) :=
  ⟨by decide, by decide⟩

/-- C3 (counterexample): on a run whose discovery stage raises
(`TypeError` from a `None` href), `main` ends with the exception
propagating and no `quit` event in the trace: `driver.quit()` is not
executed on this exit path. -/
theorem quit_skipped_on_discovery_error :
    mainRun nullWorld dwBig 1 = some ([Ev.header], .error Exc.typeError) ∧
      Ev.quit ∉ [Ev.header] :=
  ⟨by decide, by decide⟩

/-- C3 (amended): `driver.quit()` runs exactly on the normal-completion
exit path of `main` — it is the last event of a normally completed run,
and it is absent from the trace of a run that ends with a propagating
exception. -/
theorem quit_on_normal_exit_only (lw : Nat → List Link) (dw : Nat → DetailPage)
    (fuel : Nat) (evs : List Ev) (out : Except Exc Unit)
    (h : mainRun lw dw fuel = some (evs, out)) :
    (out = .ok () → evs.getLast? = some Ev.quit) ∧
      ∀ e, out = .error e → Ev.quit ∉ evs := by
  unfold mainRun at h
  cases hd : get_top_goodreads_book_ids lw 150 fuel with
  | none => rw [hd] at h; simp at h
  | some res =>
    rw [hd] at h
    cases res with
    | error e =>
      simp only [Option.some.injEq, Prod.mk.injEq] at h
      obtain ⟨hevs, hout⟩ := h
      constructor
      · intro hok; rw [hok] at hout; simp at hout
      · intro e2 _; rw [← hevs]; decide
    | ok ids =>
      simp only [pipelineLoop_eq dw ids, Option.some.injEq, Prod.mk.injEq] at h
      obtain ⟨hevs, hout⟩ := h
      constructor
      · intro _
        rw [← hevs, ← List.cons_append]
        exact List.getLast?_concat _
      · intro e he; rw [he] at hout; simp at hout

theorem quit_on_normal_exit_only_w :
    ((.error Exc.typeError : Except Exc Unit) = .ok () →
        ([Ev.header] : List Ev).getLast? = some Ev.quit) ∧
      (∀ e, (.error Exc.typeError : Except Exc Unit) = .error e →
        Ev.quit ∉ ([Ev.header] : List Ev)) :=
  quit_on_normal_exit_only nullWorld dwBig 1 [Ev.header] (.error Exc.typeError) (by decide)

/-- C4: a run whose discovery stage returned `ids` completes normally
and writes exactly one row per identifier, in identifier order, with
the all-empty row standing in for every identifier whose extraction
raised internally. -/
theorem one_row_per_identifier (lw : Nat → List Link) (dw : Nat → DetailPage)
    (fuel : Nat) (ids : List Nat) (evs : List Ev) (out : Except Exc Unit)
    (h : mainRun lw dw fuel = some (evs, out))
    (hids : get_top_goodreads_book_ids lw 150 fuel = some (.ok ids)) :
    out = .ok () ∧
      rowsOf evs = ids.map (fun book_id => toRow (extractVal (dw book_id))) ∧
      ∀ book_id ∈ ids, ∀ e, bodySteps (dw book_id) = .error e →
        toRow (extractVal (dw book_id)) = emptyRow := by
  unfold mainRun at h
  rw [hids] at h
  simp only [pipelineLoop_eq dw ids, Option.some.injEq, Prod.mk.injEq] at h
  obtain ⟨hevs, hout⟩ := h
  refine ⟨hout.symm, ?_, ?_⟩
  · rw [← hevs, rowsOf_header_append, rowsOf_flatMap]
  · intro book_id _ e he
    unfold extractVal
    rw [he]
    rfl

set_option maxRecDepth 40000 in
theorem one_row_per_identifier_w :
    (.ok () : Except Exc Unit) = .ok () ∧
      rowsOf evsBig = idsBig.map (fun book_id => toRow (extractVal (dwBig book_id))) ∧
      ∀ book_id ∈ idsBig, ∀ e, bodySteps (dwBig book_id) = .error e →
        toRow (extractVal (dwBig book_id)) = emptyRow :=
  one_row_per_identifier lwBig dwBig 2 idsBig evsBig (.ok ()) (by decide) (by decide)

/-- C5: in every trace `main` can produce, each row write is
immediately followed by a flush of the output buffer, so a flush occurs
between any two row writes. -/
theorem flush_after_each_row (lw : Nat → List Link) (dw : Nat → DetailPage)
    (fuel : Nat) (evs : List Ev) (out : Except Exc Unit)
    (h : mainRun lw dw fuel = some (evs, out)) :
    flushAfterRow evs = true := by
  unfold mainRun at h
  cases hd : get_top_goodreads_book_ids lw 150 fuel with
  | none => rw [hd] at h; simp at h
  | some res =>
    rw [hd] at h
    cases res with
    | error e =>
      simp only [Option.some.injEq, Prod.mk.injEq] at h
      rw [← h.1]
      rfl
    | ok ids =>
      simp only [pipelineLoop_eq dw ids, Option.some.injEq, Prod.mk.injEq] at h
      rw [← h.1]
      exact flushAfterRow_flatMap _ ids

theorem flush_after_each_row_w : flushAfterRow [Ev.header] = true :=
  flush_after_each_row nullWorld dwBig 1 [Ev.header] (.error Exc.typeError) (by decide)
